import Mathlib

/-!
# Verification of mcp-agenthub core components

Shallow embedding of the router's circuit breaker, in-memory LRU cache,
server registry / process manager / supervisor bookkeeping, stdio bridge
request correlation, and the enhancement service, translated from the
Python sources under `src/router/`.  Wall-clock time is passed explicitly
as a rational parameter (`now`); external effects (process spawning, the
LLM call, arrival of a stdio response) are passed as explicit outcome
parameters.  Python exceptions are modelled with `Except`; Python `None`
with `Option`; Python float arithmetic with `ℚ` (the claims under study
only involve exact comparisons and additions, never rounding behaviour).
-/

/-! ## Circuit breaker (`src/router/resilience/circuit_breaker.py`) -/

/-- `CircuitState`: `closed` = CLOSED, `opened` = OPEN, `halfOpen` = HALF_OPEN. -/
inductive CircuitState where
  | closed
  | opened
  | halfOpen
deriving DecidableEq, Repr

/-- `CircuitBreakerConfig` (pydantic model, same defaults as the source). -/
structure CircuitBreakerConfig where
  failure_threshold : Nat := 3
  recovery_timeout : ℚ := 30
  half_open_max_calls : Nat := 1
  success_threshold : Nat := 1
deriving DecidableEq, Repr

/-- `CircuitBreakerStats` (pydantic model, same defaults as the source). -/
structure CircuitBreakerStats where
  state : CircuitState := .closed
  failure_count : Nat := 0
  success_count : Nat := 0
  last_failure_time : Option ℚ := none
  last_success_time : Option ℚ := none
  total_failures : Nat := 0
  total_successes : Nat := 0
  times_opened : Nat := 0
deriving DecidableEq, Repr

/-- `CircuitBreakerError(name, state, retry_after=None)`. -/
structure CircuitBreakerError where
  name : String
  state : CircuitState
  retry_after : Option ℚ := none
deriving DecidableEq, Repr

/-- The mutable fields of a `CircuitBreaker` object: `_stats` and
`_half_open_calls` (the asyncio lock is irrelevant to a single-task model). -/
structure CircuitBreaker where
  name : String
  config : CircuitBreakerConfig
  stats : CircuitBreakerStats := {}
  half_open_calls : Nat := 0
deriving DecidableEq, Repr

/-- Python truthiness of an `Option ℚ` value (`None` and `0.0` are falsy),
as tested by `if self._stats.last_failure_time:`. -/
def qTruthy : Option ℚ → Bool
  | none => false
  | some t => t ≠ 0

/-- The `state` property: lazily reads OPEN as HALF_OPEN once
`recovery_timeout` has elapsed since `last_failure_time`. -/
def CircuitBreaker.state (cb : CircuitBreaker) (now : ℚ) : CircuitState :=
  if cb.stats.state = .opened then
    match cb.stats.last_failure_time with
    | some t =>
        if t ≠ 0 then
          if now - t ≥ cb.config.recovery_timeout then .halfOpen else cb.stats.state
        else cb.stats.state
    | none => cb.stats.state
  else cb.stats.state

/-- `check()`: `.ok` = request allowed (returning the updated breaker),
`.error` = `CircuitBreakerError` raised. -/
def CircuitBreaker.check (cb : CircuitBreaker) (now : ℚ) :
    Except CircuitBreakerError CircuitBreaker :=
  let current_state := cb.state now
  if current_state = .closed then .ok cb
  else if current_state = .opened then
    let retry_after : Option ℚ :=
      match cb.stats.last_failure_time with
      | some t =>
          if t ≠ 0 then some (max 0 (cb.config.recovery_timeout - (now - t))) else none
      | none => none
    .error { name := cb.name, state := current_state, retry_after := retry_after }
  else
    if cb.half_open_calls ≥ cb.config.half_open_max_calls then
      .error { name := cb.name, state := current_state, retry_after := none }
    else .ok { cb with half_open_calls := cb.half_open_calls + 1 }

/-- `_transition_to(new_state)`. -/
def CircuitBreaker.transition_to (cb : CircuitBreaker) (new_state : CircuitState) :
    CircuitBreaker :=
  let cb' := { cb with stats := { cb.stats with state := new_state } }
  match new_state with
  | .closed =>
      { cb' with
        stats := { cb'.stats with failure_count := 0, success_count := 0 }
        half_open_calls := 0 }
  | .opened =>
      { cb' with
        stats := { cb'.stats with times_opened := cb'.stats.times_opened + 1 }
        half_open_calls := 0 }
  | .halfOpen =>
      { cb' with
        stats := { cb'.stats with success_count := 0 }
        half_open_calls := 0 }

/-- `record_success()`: the pre-state is read first, counters updated, then
the close-transition test runs on the updated counters. -/
def CircuitBreaker.record_success (cb : CircuitBreaker) (now : ℚ) : CircuitBreaker :=
  let current_state := cb.state now
  let cb' := { cb with
    stats := { cb.stats with
      success_count := cb.stats.success_count + 1
      total_successes := cb.stats.total_successes + 1
      last_success_time := some now } }
  if current_state = .halfOpen then
    if cb'.stats.success_count ≥ cb'.config.success_threshold then
      cb'.transition_to .closed
    else cb'
  else cb'

/-- `record_failure()`: the pre-state is read first, counters updated, then
the open-transition test runs on the updated counters. -/
def CircuitBreaker.record_failure (cb : CircuitBreaker) (now : ℚ) : CircuitBreaker :=
  let current_state := cb.state now
  let cb' := { cb with
    stats := { cb.stats with
      failure_count := cb.stats.failure_count + 1
      total_failures := cb.stats.total_failures + 1
      last_failure_time := some now } }
  if current_state = .closed then
    if cb'.stats.failure_count ≥ cb'.config.failure_threshold then
      cb'.transition_to .opened
    else cb'
  else if current_state = .halfOpen then cb'.transition_to .opened
  else cb'

/-- `n` consecutive `record_failure()` calls at time `now`. -/
def CircuitBreaker.failN (cb : CircuitBreaker) (now : ℚ) : Nat → CircuitBreaker
  | 0 => cb
  | n + 1 => (cb.failN now n).record_failure now

/-- Repeated `check()` calls at the given times, threading the breaker through
admitted calls and counting how many were admitted (rejected calls raise and
leave the breaker unchanged). -/
def CircuitBreaker.checkRun (cb : CircuitBreaker) : List ℚ → CircuitBreaker × Nat
  | [] => (cb, 0)
  | now :: rest =>
      match cb.check now with
      | .ok cb' => let (cb'', k) := cb'.checkRun rest; (cb'', k + 1)
      | .error _ => cb.checkRun rest

example :
    (CircuitBreaker.failN { name := "t", config := {} } 5 3).stats.state = .opened := by
  decide

example :
    (CircuitBreaker.failN { name := "t", config := {} } 5 2).stats.state = .closed := by
  decide

/-! ## In-memory LRU cache (`src/router/cache/memory.py`)

The `OrderedDict` is modelled as an association list in insertion/recency
order: the head is the least recently used entry (`popitem(last=False)` pops
the head, `move_to_end` re-appends at the tail).  Each entry stores
`(value, created_at, ttl)` exactly as the source's tuple does. -/

/-- `CacheStats` (from `src/router/cache/base.py`): the counter fields used
by the memory cache. -/
structure CacheStats where
  hits : Nat := 0
  misses : Nat := 0
  size : Nat := 0
  max_size : Nat := 0
  evictions : Nat := 0
deriving DecidableEq, Repr

/-- One `OrderedDict` entry: `(value, created_at, ttl)`. -/
structure CacheEntry (V : Type) where
  value : V
  created_at : ℚ
  ttl : Option ℚ
deriving DecidableEq, Repr

/-- `MemoryCache` state: capacity, default TTL, the ordered entries and the
stats object. -/
structure MemoryCache (V : Type) where
  max_size : Nat := 1000
  default_ttl : ℚ := 3600
  cache : List (String × CacheEntry V) := []
  stats : CacheStats := { max_size := 1000 }
deriving DecidableEq, Repr

/-- Key lookup in the ordered entry list (dict membership / indexing). -/
def cacheLookup {V : Type} (key : String) :
    List (String × CacheEntry V) → Option (CacheEntry V)
  | [] => none
  | (k, e) :: rest => if k = key then some e else cacheLookup key rest

/-- `del self._cache[key]` (keys are unique, so filtering removes the one
matching entry). -/
def cacheErase {V : Type} (key : String) (l : List (String × CacheEntry V)) :
    List (String × CacheEntry V) :=
  l.filter (fun p => p.1 ≠ key)

/-- The `while len(self._cache) >= self.max_size:` eviction loop of `set`,
popping from the LRU end and counting evictions.  `none` models the
`KeyError` that `popitem` raises when the loop runs on an empty dict
(reachable only for `max_size = 0`). -/
def evictLoop {V : Type} (max_size : Nat) :
    List (String × CacheEntry V) → Nat → Option (List (String × CacheEntry V) × Nat)
  | [], ev => if max_size = 0 then none else some ([], ev)
  | e :: rest, ev =>
      if (e :: rest).length ≥ max_size then evictLoop max_size rest (ev + 1)
      else some (e :: rest, ev)

/-- `MemoryCache.get(key)` at wall-clock `now`: returns the value (or `None`
on miss / expiry) together with the updated cache state. -/
def MemoryCache.get {V : Type} (c : MemoryCache V) (now : ℚ) (key : String) :
    Option V × MemoryCache V :=
  match cacheLookup key c.cache with
  | none => (none, { c with stats := { c.stats with misses := c.stats.misses + 1 } })
  | some e =>
      match e.ttl with
      | some t =>
          if now - e.created_at > t then
            let cache' := cacheErase key c.cache
            (none, { c with
              cache := cache'
              stats := { c.stats with
                misses := c.stats.misses + 1
                size := cache'.length } })
          else
            (some e.value, { c with
              cache := cacheErase key c.cache ++ [(key, e)]
              stats := { c.stats with hits := c.stats.hits + 1 } })
      | none =>
          (some e.value, { c with
            cache := cacheErase key c.cache ++ [(key, e)]
            stats := { c.stats with hits := c.stats.hits + 1 } })

/-- `MemoryCache.set(key, value, ttl)` at wall-clock `now`.  `none` models the
unreachable-in-practice `KeyError` of the eviction loop (`max_size = 0`). -/
def MemoryCache.set {V : Type} (c : MemoryCache V) (now : ℚ) (key : String)
    (value : V) (ttlArg : Option ℚ) : Option (MemoryCache V) :=
  let ttl := ttlArg.getD c.default_ttl
  if (cacheLookup key c.cache).isSome then
    -- existing key: update the tuple in place, then move_to_end
    some { c with
      cache := cacheErase key c.cache ++ [(key, ⟨value, now, some ttl⟩)] }
  else
    match evictLoop c.max_size c.cache c.stats.evictions with
    | none => none
    | some (entries, ev) =>
        let cache' := entries ++ [(key, ⟨value, now, some ttl⟩)]
        some { c with
          cache := cache'
          stats := { c.stats with evictions := ev, size := cache'.length } }

/-- `MemoryCache.delete(key)`. -/
def MemoryCache.deleteKey {V : Type} (c : MemoryCache V) (key : String) :
    Bool × MemoryCache V :=
  if (cacheLookup key c.cache).isSome then
    let cache' := cacheErase key c.cache
    (true, { c with cache := cache', stats := { c.stats with size := cache'.length } })
  else (false, c)

/-- Insert a list of keys (each mapped to the value `v`, default TTL) in
order, via `set`. -/
def MemoryCache.fillKeys {V : Type} (c : MemoryCache V) (now : ℚ) (v : V) :
    List String → Option (MemoryCache V)
  | [] => some c
  | k :: rest =>
      match c.set now k v none with
      | none => none
      | some c' => c'.fillKeys now v rest

example :
    ((({} : MemoryCache Nat).set 0 "a" 1 none).bind
      (fun c => c.set 0 "b" 2 none)).map (fun c => c.cache.map Prod.fst) =
      some ["a", "b"] := by
  decide

example :
    (MemoryCache.fillKeys { max_size := 2, stats := { max_size := 2 } } 0 7
        ["a", "b", "c"]).map
      (fun c => (c.cache.map Prod.fst, c.stats.evictions)) =
      some (["b", "c"], 1) := by
  decide

/-! ## Server models and registry (`src/router/servers/models.py`,
`src/router/servers/registry.py`)

Python dicts keyed by server name are modelled as association lists in
insertion order; `d[k] = v` updates in place or appends. -/

/-- Generic dict lookup. -/
def alistLookup {α : Type} (key : String) : List (String × α) → Option α
  | [] => none
  | (k, v) :: rest => if k = key then some v else alistLookup key rest

/-- Generic dict assignment (`d[k] = v`). -/
def alistSet {α : Type} (key : String) (v : α) : List (String × α) → List (String × α)
  | [] => [(key, v)]
  | (k, x) :: rest =>
      if k = key then (k, v) :: rest else (k, x) :: alistSet key v rest

/-- Generic dict deletion (`del d[k]`; keys are unique). -/
def alistErase {α : Type} (key : String) (l : List (String × α)) : List (String × α) :=
  l.filter (fun p => p.1 ≠ key)

/-- `ServerTransport`. -/
inductive ServerTransport where
  | stdio
  | http
deriving DecidableEq, Repr

/-- `ServerStatus`. -/
inductive ServerStatus where
  | stopped
  | starting
  | running
  | failed
  | stopping
deriving DecidableEq, Repr

/-- `ServerConfig`: the fields the lifecycle code reads (URL, health and
description metadata are never consulted by the operations under study). -/
structure ServerConfig where
  name : String
  transport : ServerTransport
  command : Option String := none
  args : List String := []
  auto_start : Bool := false
  restart_on_failure : Bool := true
  max_restarts : Nat := 3
deriving DecidableEq, Repr

/-- `ProcessInfo` (same defaults as the pydantic model). -/
structure ProcessInfo where
  pid : Option Nat := none
  status : ServerStatus := .stopped
  started_at : Option ℚ := none
  restart_count : Nat := 0
  last_error : Option String := none
deriving DecidableEq, Repr

/-- `ProcessInfo.is_running()`: `status in (RUNNING, STARTING)`. -/
def ProcessInfo.is_running (info : ProcessInfo) : Bool :=
  info.status = .running ∨ info.status = .starting

/-- `ServerConfig.get_full_command()`: raises if no command is configured. -/
def ServerConfig.get_full_command (config : ServerConfig) :
    Except String (List String) :=
  match config.command with
  | none => .error ("Server " ++ config.name ++ " has no command configured")
  | some cmd => .ok (cmd :: config.args)

/-- `ServerRegistry`: `_servers` (persisted configs) and `_processes`
(in-memory runtime state).  `save()` only writes the JSON file and is a
no-op on this state. -/
structure ServerRegistry where
  servers : List (String × ServerConfig) := []
  processes : List (String × ProcessInfo) := []
deriving DecidableEq, Repr

/-- `ServerRegistry.update_process_info(name, *, pid, status, started_at,
restart_count, last_error)`: only fields passed a non-`None` value are
applied (the source guards each with `if x is not None:`). -/
def ServerRegistry.update_process_info (reg : ServerRegistry) (name : String)
    (pid : Option Nat) (status : Option ServerStatus) (started_at : Option ℚ)
    (restart_count : Option Nat) (last_error : Option String) :
    Except String (ServerRegistry × ProcessInfo) :=
  if (alistLookup name reg.servers).isNone then
    .error ("Server " ++ name ++ " not found")
  else
    let info := (alistLookup name reg.processes).getD {}
    let info := match pid with | some p => { info with pid := some p } | none => info
    let info := match status with | some s => { info with status := s } | none => info
    let info := match started_at with
      | some t => { info with started_at := some t } | none => info
    let info := match restart_count with
      | some n => { info with restart_count := n } | none => info
    let info := match last_error with
      | some e => { info with last_error := some e } | none => info
    .ok ({ reg with processes := alistSet name info reg.processes }, info)

/-- `ServerRegistry.remove(name)`: raises if the server is unknown or if its
`ProcessInfo.is_running()`; otherwise deletes config and process info. -/
def ServerRegistry.remove (reg : ServerRegistry) (name : String) :
    Except String ServerRegistry :=
  if (alistLookup name reg.servers).isNone then
    .error ("Server " ++ name ++ " not found")
  else
    let proc := alistLookup name reg.processes
    if (proc.map ProcessInfo.is_running).getD false then
      .error ("Cannot remove running server " ++ name ++ ", stop it first")
    else
      .ok { reg with
        servers := alistErase name reg.servers
        processes := alistErase name reg.processes }

/-! ## Process manager (`src/router/servers/process.py`)

A subprocess handle is modelled by its `returncode` (`none` = still
running).  Spawning is an external effect, passed in as
`spawn : Except String Nat` (error message or child pid). -/

/-- `ProcessManager` state: the registry it mutates and the `_processes`
handle map. -/
structure ProcessManager where
  registry : ServerRegistry := {}
  processes : List (String × Option Int) := []
deriving DecidableEq, Repr

/-- Apply a registry update inside a manager method: Python mutates the
registry in place, so an exception from `update_process_info` would leave
earlier mutations visible; the pair returned here always carries the
post-mutation state. -/
def ProcessManager.applyUpdate (pm : ProcessManager) (name : String)
    (pid : Option Nat) (status : Option ServerStatus) (started_at : Option ℚ)
    (restart_count : Option Nat) (last_error : Option String) :
    ProcessManager × Except String ProcessInfo :=
  match pm.registry.update_process_info name pid status started_at
      restart_count last_error with
  | .ok (reg, info) => ({ pm with registry := reg }, .ok info)
  | .error e => (pm, .error e)

/-- `ProcessManager.start(name)` with spawn outcome `spawn` at time `now`.
The returned manager reflects every mutation made before a raise. -/
def ProcessManager.start (pm : ProcessManager) (name : String)
    (spawn : Except String Nat) (now : ℚ) :
    ProcessManager × Except String ProcessInfo :=
  match alistLookup name pm.registry.servers with
  | none => (pm, .error ("Server " ++ name ++ " not found"))
  | some config =>
    -- check if already running; clean up a dead handle
    match alistLookup name pm.processes with
    | some none => (pm, .error ("Server " ++ name ++ " is already running"))
    | handle =>
      let pm := if handle.isSome then
          { pm with processes := alistErase name pm.processes }
        else pm
      match pm.applyUpdate name none (some .starting) none none none with
      | (pm, .error e) => (pm, .error e)
      | (pm, .ok _) =>
        -- the body of the try block: build command, then spawn
        let attempt : Except String Nat := do
          let _ ← config.get_full_command
          spawn
        match attempt with
        | .ok p =>
            let pm := { pm with processes := alistSet name none pm.processes }
            pm.applyUpdate name (some p) (some .running) (some now) none none
        | .error e =>
            let error_msg := "Failed to start server " ++ name ++ ": " ++ e
            let (pm, _) := pm.applyUpdate name none (some .failed) none none
              (some error_msg)
            (pm, .error error_msg)

/-- `ProcessManager.stop(name, force)`: the terminate/kill interaction with
the child is external and does not touch this state. -/
def ProcessManager.stop (pm : ProcessManager) (name : String) :
    ProcessManager × Except String Unit :=
  match alistLookup name pm.processes with
  | none =>
      match alistLookup name pm.registry.processes with
      | some info =>
          if info.status = .stopped then (pm, .ok ())
          else (pm, .error ("Server " ++ name ++ " is not running"))
      | none => (pm, .error ("Server " ++ name ++ " is not running"))
  | some _ =>
      match pm.applyUpdate name none (some .stopping) none none none with
      | (pm, .error e) => (pm, .error e)
      | (pm, .ok _) =>
        let pm := { pm with processes := alistErase name pm.processes }
        match pm.applyUpdate name none (some .stopped) none none none with
        | (pm, .error e) => (pm, .error e)
        | (pm, .ok _) => (pm, .ok ())

/-- `ProcessManager.check_process(name)`: liveness probe; on a dead child,
records `last_error` from the exit code and up to 1 KiB of stderr
(truncated to 200 chars in the message) and transitions to STOPPED. -/
def ProcessManager.check_process (pm : ProcessManager) (name : String)
    (stderr_output : String) : ProcessManager × Bool :=
  match alistLookup name pm.processes with
  | none => (pm, false)
  | some none => (pm, true)
  | some (some exit_code) =>
      let error_msg := "Process exited with code " ++ toString exit_code ++
        (if stderr_output ≠ "" then ": " ++ stderr_output.take 200 else "")
      let pm := { pm with processes := alistErase name pm.processes }
      let (pm, _) := pm.applyUpdate name none (some .stopped) none none
        (some error_msg)
      (pm, false)

example : ((ProcessManager.start
    { registry :=
        { servers := [("s", { name := "s", transport := .stdio, command := some "npx" })]
          processes := [("s", { status := .failed, last_error := some "boom" })] } }
    "s" (.ok 42) 100).2).toOption =
    some { pid := some 42, status := .running, started_at := some 100,
           restart_count := 0, last_error := some "boom" } := by
  decide

/-! ## Supervisor (`src/router/servers/supervisor.py`)

Bridges are tracked by name only: their request/response state is studied
separately below, and the supervisor merely creates, stores and closes
them.  MCP handshake failures during `start_server` are swallowed by the
source, so they do not appear in this state. -/

/-- `Supervisor` state: its process manager (which owns the registry) and
the `_bridges` map (names of servers holding a live bridge). -/
structure Supervisor where
  pm : ProcessManager := {}
  bridges : List String := []
deriving DecidableEq, Repr

/-- `Supervisor.start_server(name)`: starts the process, then for a stdio
server with a live handle creates and stores a bridge. -/
def Supervisor.start_server (sup : Supervisor) (name : String)
    (spawn : Except String Nat) (now : ℚ) : Supervisor × Except String Unit :=
  match alistLookup name sup.pm.registry.servers with
  | none => (sup, .error ("Server " ++ name ++ " not found"))
  | some config =>
    match sup.pm.start name spawn now with
    | (pm, .error e) => ({ sup with pm := pm }, .error e)
    | (pm, .ok _) =>
      let sup := { sup with pm := pm }
      if config.transport = .stdio ∧ (alistLookup name pm.processes).isSome then
        ({ sup with bridges := if name ∈ sup.bridges then sup.bridges
            else sup.bridges ++ [name] }, .ok ())
      else (sup, .ok ())

/-- `Supervisor.stop_server(name)`: close and drop the bridge, stop the
process, then reset `restart_count` to 0 (the reset is skipped when
`stop` raises, since the exception propagates first). -/
def Supervisor.stop_server (sup : Supervisor) (name : String) :
    Supervisor × Except String Unit :=
  let sup := if name ∈ sup.bridges then
      { sup with bridges := sup.bridges.filter (· ≠ name) }
    else sup
  match sup.pm.stop name with
  | (pm, .error e) => ({ sup with pm := pm }, .error e)
  | (pm, .ok ()) =>
    match (ProcessManager.applyUpdate { sup with pm := pm }.pm name
        none none none (some 0) none) with
    | (pm, .error e) => ({ sup with pm := pm }, .error e)
    | (pm, .ok _) => ({ sup with pm := pm }, .ok ())

/-- `Supervisor._check_server(name)`: liveness probe plus the auto-restart
policy.  `stderr_output` is what the dead child left on stderr; `spawn` is
the outcome of the restart attempt (unused when no restart happens). -/
def Supervisor.check_server (sup : Supervisor) (name : String)
    (stderr_output : String) (spawn : Except String Nat) (now : ℚ) :
    Supervisor × Except String Unit :=
  match alistLookup name sup.pm.registry.servers with
  | none => (sup, .ok ())
  | some config =>
    match alistLookup name sup.pm.registry.processes with
    | none => (sup, .ok ())
    | some process_info =>
      let (pm, is_alive) := sup.pm.check_process name stderr_output
      let sup := { sup with pm := pm }
      if is_alive then (sup, .ok ())
      else
        let sup := if name ∈ sup.bridges then
            { sup with bridges := sup.bridges.filter (· ≠ name) }
          else sup
        if ¬config.restart_on_failure then
          match sup.pm.applyUpdate name none (some .stopped) none none none with
          | (pm, .error e) => ({ sup with pm := pm }, .error e)
          | (pm, .ok _) => ({ sup with pm := pm }, .ok ())
        else if process_info.restart_count ≥ config.max_restarts then
          match sup.pm.applyUpdate name none (some .failed) none none none with
          | (pm, .error e) => ({ sup with pm := pm }, .error e)
          | (pm, .ok _) => ({ sup with pm := pm }, .ok ())
        else
          let new_restart_count := process_info.restart_count + 1
          match sup.start_server name spawn now with
          | (sup, .ok ()) =>
            match sup.pm.applyUpdate name none none none
                (some new_restart_count) none with
            | (pm, .error e) => ({ sup with pm := pm }, .error e)
            | (pm, .ok _) => ({ sup with pm := pm }, .ok ())
          | (sup, .error e) =>
            match sup.pm.applyUpdate name none (some .failed) none
                (some new_restart_count) (some e) with
            | (pm, .error e') => ({ sup with pm := pm }, .error e')
            | (pm, .ok _) => ({ sup with pm := pm }, .ok ())

/-- A supervisor state with one stdio server `s` that has died (handle shows
exit code 1) after one prior automatic restart. -/
def supExampleInfo : ProcessInfo :=
  { pid := some 7, status := .running, started_at := some 50, restart_count := 1 }

def supExampleConfig : ServerConfig :=
  { name := "s", transport := .stdio, command := some "npx" }

def supExample : Supervisor :=
  { pm :=
      { registry :=
          { servers := [("s", supExampleConfig)]
            processes := [("s", supExampleInfo)] }
        processes := [("s", some 1)] } }

/-! ## Stdio bridge (`src/router/servers/bridge.py`)

A JSON-RPC response is abstracted to its payload; what matters to the
claims is request/response correlation by ID.  An `asyncio.Future` is
modelled by its observable state. -/

/-- Observable state of an `asyncio.Future[dict]`. -/
inductive FutureState (R : Type) where
  | waiting
  | done (r : R)
  | cancelled
deriving DecidableEq, Repr

/-- What an awaiter of a pending future observes when `close()` runs:
`future.cancel()` delivers a plain `asyncio.CancelledError`;
`failedWith` would be a future failed with a `StdioBridgeError` message
(the source never produces this outcome). -/
inductive AwaiterOutcome (R : Type) where
  | cancelledPlain
  | failedWith (e : String)
  | answered (r : R)
  | alreadyCancelled
deriving DecidableEq, Repr

/-- `StdioBridge` state over response payload type `R`: the ID counter,
the `pending` map, the closed flag, whether the reader task runs, and
whether the child's stdin pipe exists. -/
structure StdioBridge (R : Type) where
  request_id : Nat := 0
  pending : List (Nat × FutureState R) := []
  closed : Bool := false
  reader_running : Bool := false
  stdin_available : Bool := true
deriving DecidableEq, Repr

/-- Pending-map lookup by request ID. -/
def pendingLookup {R : Type} (id : Nat) : List (Nat × FutureState R) → Option (FutureState R)
  | [] => none
  | (i, f) :: rest => if i = id then some f else pendingLookup id rest

/-- `self._pending.pop(request_id, None)`. -/
def pendingPop {R : Type} (id : Nat) (l : List (Nat × FutureState R)) :
    List (Nat × FutureState R) :=
  l.filter (fun p => p.1 ≠ id)

/-- Dict assignment on the pending map (`future.set_result` replaces the
future's state in place). -/
def alistSetNat {α : Type} (key : Nat) (v : α) : List (Nat × α) → List (Nat × α)
  | [] => [(key, v)]
  | (k, x) :: rest =>
      if k = key then (k, v) :: rest else (k, x) :: alistSetNat key v rest

/-- `close()`: sets the closed flag, cancels the reader task, calls
`future.cancel()` on every pending future that is not done, and clears the
map.  Also returns what each previously pending awaiter observes. -/
def StdioBridge.close {R : Type} (br : StdioBridge R) :
    StdioBridge R × List (Nat × AwaiterOutcome R) :=
  ({ br with closed := true, reader_running := false, pending := [] },
   br.pending.map (fun p => (p.1,
     match p.2 with
     | .waiting => .cancelledPlain
     | .done r => .answered r
     | .cancelled => .alreadyCancelled)))

/-- How the wait in `send` ends: the reader delivers the matching response,
or `asyncio.wait_for` times out. -/
inductive SendEvent (R : Type) where
  | response (r : R)
  | timeoutEv
deriving DecidableEq, Repr

/-- Errors surfaced by `send`. -/
inductive SendError where
  | bridgeClosed
  | stdinMissing
  | timeoutErr
deriving DecidableEq, Repr

/-- `send(method, params, timeout)`: allocates the next ID, registers a
pending future, waits (outcome given by `ev`), and in the `finally` block
pops the pending entry.  Returns the caller's result and the new state. -/
def StdioBridge.send {R : Type} (br : StdioBridge R) (ev : SendEvent R) :
    Except SendError R × StdioBridge R :=
  if br.closed then (.error .bridgeClosed, br)
  else if ¬br.stdin_available then (.error .stdinMissing, br)
  else
    let br := { br with reader_running := true }
    let request_id := br.request_id + 1
    let br := { br with request_id := request_id }
    let br := { br with pending := alistSetNat request_id FutureState.waiting br.pending }
    match ev with
    | .response r =>
        (.ok r, { br with pending := pendingPop request_id br.pending })
    | .timeoutEv =>
        (.error .timeoutErr, { br with pending := pendingPop request_id br.pending })

/-- One iteration of `_read_loop` on a parsed response line: if the
response carries an ID present in `pending` whose future is not done, the
future is resolved; otherwise the line is dropped. -/
def StdioBridge.read_response {R : Type} (br : StdioBridge R)
    (response_id : Option Nat) (r : R) : StdioBridge R :=
  match response_id with
  | none => br
  | some rid =>
      match pendingLookup rid br.pending with
      | none => br
      | some .waiting =>
          { br with pending := alistSetNat rid (FutureState.done r) br.pending }
      | some _ => br

example :
    (StdioBridge.send (R := Nat) { } .timeoutEv).1 = .error .timeoutErr := by
  rfl

/-! ## Enhancement service (`src/router/enhancement/service.py`)

The Ollama call is an external effect, passed in as an `LLMOutcome`.
Python's `f"...{e.retry_after:.0f}s"` raises `TypeError` when
`retry_after` is `None`; that unhandled exception is the `.error` result
of `enhance`. -/

/-- `EnhancementRule` (same defaults as the pydantic model). -/
structure EnhancementRule where
  enabled : Bool := true
  model : String := "llama3.2:3b"
  temperature : ℚ := 3/10
  max_tokens : Option Nat := some 500
deriving DecidableEq, Repr

/-- `EnhancementResult` (same defaults as the pydantic model). -/
structure EnhancementResult where
  original : String
  enhanced : String
  model : Option String := none
  cached : Bool := false
  enhanced_by_llm : Bool := false
  error : Option String := none
deriving DecidableEq, Repr

/-- `EnhancementResult.was_enhanced`. -/
def EnhancementResult.was_enhanced (r : EnhancementResult) : Bool :=
  r.original ≠ r.enhanced

/-- Python `str.strip()`: drop leading and trailing whitespace (defined on
the character list so that it evaluates inside the kernel). -/
def pyStrip (s : String) : String :=
  String.mk (((s.data.dropWhile Char.isWhitespace).reverse.dropWhile
    Char.isWhitespace).reverse)

/-- Outcome of `OllamaClient.generate` (after its internal retries):
the response text, or the raised error. -/
inductive LLMOutcome where
  | success (text : String)
  | connectionFailure (msg : String)
  | ollamaFailure (msg : String)
  | otherFailure (msg : String)
deriving DecidableEq, Repr

/-- `x or "default"` on an optional string (`None` and `""` are falsy). -/
def orDefault : Option String → String
  | none => "default"
  | some s => if s = "" then "default" else s

/-- `make_cache_key` serializes `\x7b"prompt": .., "client": .., "model": ..\x7d`
with sorted keys and hashes it; SHA-256 truncated to 16 hex chars is
modelled as the injective canonical content itself (no claim depends on
hash collisions). -/
def make_cache_key (client model prompt : String) : String :=
  "\x7b\"client\": \"" ++ client ++ "\", \"model\": \"" ++ model ++
    "\", \"prompt\": \"" ++ prompt ++ "\"\x7d"

/-- Python's round-half-to-even, as used by the `:.0f` format spec. -/
def roundHalfEven (q : ℚ) : ℤ :=
  if q - ⌊q⌋ = 1/2 then (if Even ⌊q⌋ then ⌊q⌋ else ⌊q⌋ + 1) else round q

/-- `f"\x7bx:.0f\x7d"` on a `float | None` value: formatting `None` raises
`TypeError` (`.error`); a number renders as its rounded integer. -/
def formatDotZeroF : Option ℚ → Except String String
  | none => .error "unsupported format string passed to NoneType.__format__"
  | some q => .ok (toString (roundHalfEven q))

/-- `EnhancementService` state: the loaded rules, the default rule, the L1
cache (values are enhanced prompt strings) and the Ollama breaker.  The
source constructs the breaker with `failure_threshold=3`,
`recovery_timeout=30.0`, `half_open_max_calls=1` and the cache with
`max_size=500`, `default_ttl=7200.0`. -/
structure EnhancementService where
  rules : List (String × EnhancementRule) := []
  default_rule : EnhancementRule := {}
  cache : MemoryCache String :=
    { max_size := 500, default_ttl := 7200, stats := { max_size := 500 } }
  breaker : CircuitBreaker :=
    { name := "ollama"
      config := { failure_threshold := 3, recovery_timeout := 30,
                  half_open_max_calls := 1 } }
deriving DecidableEq, Repr

/-- `get_rule(client_name)`: client-specific rule when the (truthy) name is
known, else the `"default"` rule, else the built-in default. -/
def EnhancementService.get_rule (svc : EnhancementService)
    (client_name : Option String) : EnhancementRule :=
  match client_name with
  | some c =>
      if c ≠ "" ∧ (alistLookup c svc.rules).isSome then
        (alistLookup c svc.rules).getD svc.default_rule
      else (alistLookup "default" svc.rules).getD svc.default_rule
  | none => (alistLookup "default" svc.rules).getD svc.default_rule

/-- The breaker-check and Ollama-call part of `enhance` (everything after
the cache miss). -/
def EnhancementService.enhanceLLM (svc : EnhancementService) (now : ℚ)
    (prompt : String) (rule : EnhancementRule) (key : String)
    (llm : LLMOutcome) : Except String (EnhancementResult × EnhancementService) :=
  match svc.breaker.check now with
  | .error e =>
      (formatDotZeroF e.retry_after).map (fun s =>
        ({ original := prompt, enhanced := prompt,
           error := some ("Ollama circuit breaker open, retry in " ++ s ++ "s") },
         svc))
  | .ok breaker' =>
      let svc := { svc with breaker := breaker' }
      match llm with
      | .success text =>
          let enhanced := pyStrip text
          let svc := { svc with breaker := svc.breaker.record_success now }
          match svc.cache.set now key enhanced none with
          | none => .error "KeyError"
          | some cache' =>
              .ok ({ original := prompt, enhanced := enhanced,
                     model := some rule.model, enhanced_by_llm := true },
                   { svc with cache := cache' })
      | .connectionFailure msg =>
          .ok ({ original := prompt, enhanced := prompt, error := some msg },
               { svc with breaker := svc.breaker.record_failure now })
      | .ollamaFailure msg =>
          .ok ({ original := prompt, enhanced := prompt, error := some msg },
               { svc with breaker := svc.breaker.record_failure now })
      | .otherFailure msg =>
          .ok ({ original := prompt, enhanced := prompt, error := some msg },
               { svc with breaker := svc.breaker.record_failure now })

/-- `enhance(prompt, client_name, bypass_cache)` with LLM outcome `llm` at
time `now`.  `.error` is an exception escaping `enhance` unhandled. -/
def EnhancementService.enhance (svc : EnhancementService) (now : ℚ)
    (prompt : String) (client_name : Option String) (bypass_cache : Bool)
    (llm : LLMOutcome) : Except String (EnhancementResult × EnhancementService) :=
  let rule := svc.get_rule client_name
  if ¬rule.enabled then
    .ok ({ original := prompt, enhanced := prompt,
           error := some "Enhancement disabled for client" }, svc)
  else
    -- cache lookup (unless bypassed); `if cached:` is a truthiness test
    let key := make_cache_key (orDefault client_name) (orDefault (some rule.model)) prompt
    let (cachedVal, svc) :=
      if ¬bypass_cache then
        let (v, cache') := svc.cache.get now key
        (v, { svc with cache := cache' })
      else (none, svc)
    match cachedVal with
    | some s =>
        if s ≠ "" then
          .ok ({ original := prompt, enhanced := s, model := some rule.model,
                 cached := true }, svc)
        else EnhancementService.enhanceLLM svc now prompt rule key llm
    | none => EnhancementService.enhanceLLM svc now prompt rule key llm

example :
    (EnhancementService.enhance {} 0 "hello" none false (.success "hello")).toOption.map
      (fun r => (r.1.enhanced, r.1.enhanced_by_llm, r.1.error)) =
      some ("hello", true, none) := by
  rfl

/-! ## Helper lemmas -/

/-- A breaker whose stored state is CLOSED reads CLOSED. -/
lemma state_of_closed (cb : CircuitBreaker) (now : ℚ)
    (h : cb.stats.state = .closed) : cb.state now = .closed := by
  simp [CircuitBreaker.state, h]

/-- A breaker whose stored state is OPEN, with a truthy last failure time and
the recovery timeout elapsed, reads HALF_OPEN. -/
lemma state_reads_halfOpen (cb : CircuitBreaker) (now t : ℚ)
    (hst : cb.stats.state = .opened) (hlft : cb.stats.last_failure_time = some t)
    (ht : t ≠ 0) (helapsed : now - t ≥ cb.config.recovery_timeout) :
    cb.state now = .halfOpen := by
  simp [CircuitBreaker.state, hst, hlft, ht, helapsed]

/-- On a CLOSED breaker, `failN` keeps the state CLOSED and counts failures,
as long as the running count stays below the threshold. -/
lemma failN_below_threshold (name : String) (cfg : CircuitBreakerConfig) (now : ℚ) :
    ∀ k, k < cfg.failure_threshold →
      (CircuitBreaker.failN { name := name, config := cfg } now k).stats.state
          = .closed ∧
      (CircuitBreaker.failN { name := name, config := cfg } now k).stats.failure_count
          = k ∧
      (CircuitBreaker.failN { name := name, config := cfg } now k).config = cfg := by
  intro k
  induction k with
  | zero => intro _; exact ⟨rfl, rfl, rfl⟩
  | succ n ih =>
      intro hlt
      obtain ⟨hstate, hcount, hcfg⟩ := ih (Nat.lt_of_succ_lt hlt)
      have hread : (CircuitBreaker.failN { name := name, config := cfg } now n).state now
          = .closed := state_of_closed _ now hstate
      have hnotop : ¬(cfg.failure_threshold ≤ n + 1) := by omega
      simp [CircuitBreaker.failN, CircuitBreaker.record_failure, hread, hnotop,
        hstate, hcount, hcfg]

/-- C5: starting from a fresh CLOSED circuit breaker, exactly
`failure_threshold` consecutive `record_failure` calls (no interleaved
successes) transition the breaker to OPEN, while `failure_threshold - 1`
consecutive failures leave it CLOSED. -/
theorem C5_threshold_failures_open_circuit (name : String)
    (cfg : CircuitBreakerConfig) (now : ℚ) (h1 : 1 ≤ cfg.failure_threshold) :
    (CircuitBreaker.failN { name := name, config := cfg } now
        cfg.failure_threshold).stats.state = .opened ∧
    (CircuitBreaker.failN { name := name, config := cfg } now
        (cfg.failure_threshold - 1)).stats.state = .closed := by
  constructor
  · obtain ⟨T, hT⟩ : ∃ T, cfg.failure_threshold = T + 1 :=
      ⟨cfg.failure_threshold - 1, by omega⟩
    obtain ⟨hstate, hcount, hcfg⟩ :=
      failN_below_threshold name cfg now T (by omega)
    have hread : (CircuitBreaker.failN { name := name, config := cfg } now T).state now
        = .closed := state_of_closed _ now hstate
    have hcond : cfg.failure_threshold ≤ T + 1 := by omega
    rw [hT]
    simp [CircuitBreaker.failN, CircuitBreaker.record_failure,
      CircuitBreaker.transition_to, hread, hstate, hcount, hcfg, hcond]
  · exact (failN_below_threshold name cfg now (cfg.failure_threshold - 1)
      (by omega)).1

/-- Witness for C5 at the default config (threshold 3). -/
theorem C5_threshold_failures_open_circuit_witness :
    1 ≤ (({} : CircuitBreakerConfig)).failure_threshold ∧
    ((CircuitBreaker.failN { name := "ollama", config := {} } 5
        (({} : CircuitBreakerConfig)).failure_threshold).stats.state = .opened ∧
     (CircuitBreaker.failN { name := "ollama", config := {} } 5
        ((({} : CircuitBreakerConfig)).failure_threshold - 1)).stats.state = .closed) :=
  ⟨by decide, by
    have h := C5_threshold_failures_open_circuit "ollama" {} 5 (by decide)
    exact ⟨h.1, by decide⟩⟩

/-- While the stored state stays OPEN past the recovery deadline (so `state`
reads HALF_OPEN), a run of `check()` calls admits exactly enough calls to
bring `_half_open_calls` up to the cap, and rejects the rest. -/
lemma checkRun_halfOpen (t : ℚ) :
    ∀ (times : List ℚ) (cb : CircuitBreaker),
      cb.stats.state = .opened →
      cb.stats.last_failure_time = some t →
      t ≠ 0 →
      (∀ τ ∈ times, τ - t ≥ cb.config.recovery_timeout) →
      cb.checkRun times =
        ({ cb with half_open_calls := cb.half_open_calls + min times.length (cb.config.half_open_max_calls - cb.half_open_calls) },
         min times.length (cb.config.half_open_max_calls - cb.half_open_calls)) := by
  intro times
  induction times with
  | nil => intro cb _ _ _ _; simp [CircuitBreaker.checkRun]
  | cons τ rest ih =>
      intro cb hst hlft ht htimes
      have hτ : τ - t ≥ cb.config.recovery_timeout := htimes τ (by simp)
      have hread : cb.state τ = .halfOpen := state_reads_halfOpen cb τ t hst hlft ht hτ
      by_cases hcase : cb.half_open_calls ≥ cb.config.half_open_max_calls
      · have hrest := ih cb hst hlft ht (fun σ hσ => htimes σ (by simp [hσ]))
        have hmin0 : cb.config.half_open_max_calls - cb.half_open_calls = 0 := by
          omega
        simp [CircuitBreaker.checkRun, CircuitBreaker.check, hread, hcase, hrest,
          hmin0]
      · have hrest := ih { cb with half_open_calls := cb.half_open_calls + 1 }
          hst hlft ht (fun σ hσ => htimes σ (by simp [hσ]))
        simp only [CircuitBreaker.checkRun, CircuitBreaker.check, hread]
        simp only [reduceCtorEq, if_false, ge_iff_le] at *
        rw [if_neg (by omega)]
        simp [hrest]
        constructor
        · omega
        · omega

/-- A breaker reading HALF_OPEN with its probe quota exhausted rejects
`check()` with a breaker-open error carrying `retry_after = None`. -/
lemma check_rejects_in_halfOpen (b : CircuitBreaker) (now t : ℚ)
    (hst : b.stats.state = .opened) (hlft : b.stats.last_failure_time = some t)
    (ht : t ≠ 0) (hn : now - t ≥ b.config.recovery_timeout)
    (hq : b.half_open_calls ≥ b.config.half_open_max_calls) :
    b.check now = .error { name := b.name, state := .halfOpen, retry_after := none } := by
  have hread := state_reads_halfOpen b now t hst hlft ht hn
  simp [CircuitBreaker.check, hread, hq]

/-- C4: for a breaker whose stored state is OPEN, once elapsed wall-clock
time since `last_failure_time` reaches `recovery_timeout` the `state`
accessor reads HALF_OPEN (no timer involved); from that point exactly
`half_open_max_calls` calls to `check()` are admitted, and every further
`check()` before a success or failure is recorded raises the breaker-open
error. -/
theorem C4_half_open_probe_quota (cb : CircuitBreaker) (t : ℚ)
    (hst : cb.stats.state = .opened)
    (hlft : cb.stats.last_failure_time = some t)
    (ht : t ≠ 0)
    (hoc : cb.half_open_calls = 0) :
    (∀ now, now - t ≥ cb.config.recovery_timeout → cb.state now = .halfOpen) ∧
    (∀ times : List ℚ, (∀ τ ∈ times, τ - t ≥ cb.config.recovery_timeout) →
      (cb.checkRun times).2 = min times.length cb.config.half_open_max_calls) ∧
    (∀ (times : List ℚ) (now' : ℚ),
      (∀ τ ∈ times, τ - t ≥ cb.config.recovery_timeout) →
      now' - t ≥ cb.config.recovery_timeout →
      times.length ≥ cb.config.half_open_max_calls →
      (cb.checkRun times).1.check now' =
        .error { name := cb.name, state := .halfOpen, retry_after := none }) := by
  refine ⟨fun now hn => state_reads_halfOpen cb now t hst hlft ht hn, ?_, ?_⟩
  · intro times htimes
    rw [checkRun_halfOpen t times cb hst hlft ht htimes]
    simp [hoc]
  · intro times now' htimes hn' hlen
    rw [checkRun_halfOpen t times cb hst hlft ht htimes]
    exact check_rejects_in_halfOpen _ now' t hst hlft ht hn' (by simp; omega)

/-- Concrete breaker for the C4 witness: stored OPEN at time 100, default
config (`recovery_timeout = 30`, `half_open_max_calls = 1`). -/
def cbC4 : CircuitBreaker :=
  { name := "b", config := {}
    stats := { state := .opened, last_failure_time := some 100,
               failure_count := 3, total_failures := 3, times_opened := 1 } }

/-- Witness for C4: at time 140 the state reads HALF_OPEN, a single probe is
admitted, and an immediate further check at 141 is rejected. -/
theorem C4_half_open_probe_quota_witness :
    cbC4.state 140 = .halfOpen ∧
    (cbC4.checkRun [140]).2 = 1 ∧
    (cbC4.checkRun [140]).1.check 141 =
      .error { name := "b", state := .halfOpen, retry_after := none } := by
  have h := C4_half_open_probe_quota cbC4 100 rfl rfl (by norm_num) rfl
  refine ⟨h.1 140 (by norm_num [cbC4]), ?_, ?_⟩
  · have hb := h.2.1 [140] (by intro τ hτ; simp at hτ; rw [hτ]; norm_num [cbC4])
    simpa [cbC4] using hb
  · exact h.2.2 [140] 141 (by intro τ hτ; simp at hτ; rw [hτ]; norm_num [cbC4])
      (by norm_num [cbC4]) (by decide)

/-- C10: when `enhance` hits the circuit breaker in HALF_OPEN with its probe
quota exhausted, the raised breaker error carries `retry_after = None`, and
`enhance` then propagates an unhandled `TypeError` (from formatting `None`
with `:.0f`) instead of returning the original prompt with an error field. -/
theorem C10_half_open_reject_crashes_enhance (svc : EnhancementService)
    (now t : ℚ) (prompt : String) (client_name : Option String)
    (llm : LLMOutcome)
    (hst : svc.breaker.stats.state = .opened)
    (hlft : svc.breaker.stats.last_failure_time = some t)
    (ht : t ≠ 0)
    (hn : now - t ≥ svc.breaker.config.recovery_timeout)
    (hq : svc.breaker.half_open_calls ≥ svc.breaker.config.half_open_max_calls)
    (henabled : (svc.get_rule client_name).enabled = true) :
    svc.breaker.check now =
      .error { name := svc.breaker.name, state := .halfOpen, retry_after := none } ∧
    svc.enhance now prompt client_name true llm =
      .error "unsupported format string passed to NoneType.__format__" := by
  have hcheck := check_rejects_in_halfOpen svc.breaker now t hst hlft ht hn hq
  refine ⟨hcheck, ?_⟩
  simp [EnhancementService.enhance, EnhancementService.enhanceLLM, henabled,
    hcheck, formatDotZeroF, Except.map]

/-- Concrete service for the C10 witness: the ollama breaker opened at time
100 and its single half-open probe already spent. -/
def svcC10 : EnhancementService :=
  { breaker :=
      { name := "ollama"
        config := { failure_threshold := 3, recovery_timeout := 30,
                    half_open_max_calls := 1 }
        stats := { state := .opened, last_failure_time := some 100,
                   failure_count := 3, total_failures := 3, times_opened := 1 }
        half_open_calls := 1 } }

/-- Witness for C10 at time 140. -/
theorem C10_half_open_reject_crashes_enhance_witness :
    svcC10.breaker.check 140 =
      .error { name := "ollama", state := .halfOpen, retry_after := none } ∧
    svcC10.enhance 140 "hi" none true (.success "better") =
      .error "unsupported format string passed to NoneType.__format__" := by
  have h := C10_half_open_reject_crashes_enhance svcC10 140 100 "hi" none
    (.success "better") rfl rfl (by norm_num) (by norm_num [svcC10])
    (by decide) rfl
  exact h

/-- Erasing a key never lengthens the entry list. -/
lemma cacheErase_length_le {V : Type} (key : String)
    (l : List (String × CacheEntry V)) :
    (cacheErase key l).length ≤ l.length :=
  List.length_filter_le _ _

/-- Erasing a present key strictly shortens the entry list. -/
lemma cacheErase_length_lt {V : Type} (key : String)
    (l : List (String × CacheEntry V)) (h : (cacheLookup key l).isSome) :
    (cacheErase key l).length < l.length := by
  induction l with
  | nil => simp [cacheLookup] at h
  | cons p rest ih =>
      by_cases hk : p.1 = key
      · have hle : (cacheErase key rest).length ≤ rest.length :=
          cacheErase_length_le key rest
        have hfc : cacheErase key (p :: rest) = cacheErase key rest := by
          simp [cacheErase, List.filter_cons, hk]
        rw [hfc]
        simp only [List.length_cons]
        omega
      · have h' : (cacheLookup key rest).isSome := by
          simpa [cacheLookup, hk] using h
        have hlt := ih h'
        have hfc : cacheErase key (p :: rest) = p :: cacheErase key rest := by
          simp [cacheErase, List.filter_cons, hk]
        rw [hfc]
        simp only [List.length_cons]
        omega

/-- The eviction loop does nothing below capacity. -/
lemma evictLoop_lt {V : Type} {max_size : Nat}
    {l : List (String × CacheEntry V)} (h : l.length < max_size) (ev : Nat) :
    evictLoop max_size l ev = some (l, ev) := by
  cases l with
  | nil =>
      have h0 : max_size ≠ 0 := by omega
      simp [evictLoop, h0]
  | cons e rest =>
      have hnot : ¬((e :: rest).length ≥ max_size) := by omega
      simp only [evictLoop]
      rw [if_neg hnot]

/-- Whatever the eviction loop returns is strictly below capacity. -/
lemma evictLoop_result_lt {V : Type} (max_size : Nat) :
    ∀ (l : List (String × CacheEntry V)) (ev l' ev'),
      evictLoop max_size l ev = some (l', ev') → l'.length < max_size := by
  intro l
  induction l with
  | nil =>
      intro ev l' ev' h
      by_cases h0 : max_size = 0
      · simp [evictLoop, h0] at h
      · simp [evictLoop, h0] at h
        obtain ⟨h1, -⟩ := h
        subst h1
        simpa using Nat.pos_of_ne_zero h0
  | cons e rest ih =>
      intro ev l' ev' h
      by_cases hlen : (e :: rest).length ≥ max_size
      · simp only [evictLoop] at h
        rw [if_pos hlen] at h
        exact ih _ _ _ h
      · simp only [evictLoop] at h
        rw [if_neg hlen] at h
        simp at h
        obtain ⟨h1, -⟩ := h
        subst h1
        omega

/-- At exactly full capacity (at least 1), the eviction loop pops exactly the
least-recently-used head entry. -/
lemma evictLoop_eq {V : Type} {max_size : Nat}
    {l : List (String × CacheEntry V)} (h : l.length = max_size)
    (h1 : 1 ≤ max_size) (ev : Nat) :
    evictLoop max_size l ev = some (l.tail, ev + 1) := by
  cases l with
  | nil => simp at h; omega
  | cons e rest =>
      have hge : (e :: rest).length ≥ max_size := by omega
      have hrest : rest.length < max_size := by simp at h; omega
      simp only [evictLoop]
      rw [if_pos hge]
      simpa using evictLoop_lt hrest (ev + 1)

/-- `set` keeps the entry count within `max_size` whenever it was within
`max_size` before. -/
lemma set_preserves_bound {V : Type} (c : MemoryCache V) (now : ℚ)
    (key : String) (value : V) (ttl : Option ℚ) (c' : MemoryCache V)
    (hb : c.cache.length ≤ c.max_size)
    (h : c.set now key value ttl = some c') :
    c'.cache.length ≤ c.max_size := by
  unfold MemoryCache.set at h
  by_cases hk : (cacheLookup key c.cache).isSome
  · rw [if_pos hk] at h
    obtain rfl := Option.some.inj h
    have := cacheErase_length_lt key c.cache hk
    simp only [List.length_append, List.length_cons, List.length_nil]
    omega
  · rw [if_neg hk] at h
    cases heq : evictLoop c.max_size c.cache c.stats.evictions with
    | none => rw [heq] at h; exact absurd h (by simp)
    | some r =>
        obtain ⟨entries, ev⟩ := r
        rw [heq] at h
        obtain rfl := Option.some.inj h
        have := evictLoop_result_lt c.max_size c.cache c.stats.evictions
          entries ev heq
        simp only [List.length_append, List.length_cons, List.length_nil]
        omega

/-- `get` never lengthens the entry list. -/
lemma get_nonincreasing {V : Type} (c : MemoryCache V) (now : ℚ) (key : String) :
    ((c.get now key).2).cache.length ≤ c.cache.length := by
  unfold MemoryCache.get
  cases hl : cacheLookup key c.cache with
  | none => simp
  | some e =>
      obtain ⟨evalue, ecreated, ettl⟩ := e
      have hsome : (cacheLookup key c.cache).isSome = true := by simp [hl]
      have hlt := cacheErase_length_lt key c.cache hsome
      cases ettl with
      | some t =>
          by_cases hexp : now - ecreated > t
          · simp [hexp]
            omega
          · simp [hexp]
            omega
      | none =>
          simp
          omega

/-- A key absent from both halves is absent from their concatenation. -/
lemma cacheLookup_append_none {V : Type} (k : String)
    (l1 l2 : List (String × CacheEntry V))
    (h1 : cacheLookup k l1 = none) (h2 : cacheLookup k l2 = none) :
    cacheLookup k (l1 ++ l2) = none := by
  induction l1 with
  | nil => simpa using h2
  | cons p rest ih =>
      by_cases hk : p.1 = k
      · exfalso
        obtain ⟨pk, pe⟩ := p
        simp only at hk
        subst hk
        simp [cacheLookup] at h1
      · obtain ⟨pk, pe⟩ := p
        simp only at hk
        simp only [cacheLookup, if_neg hk] at h1
        simpa [cacheLookup, hk] using ih h1

/-- A key absent from a list is absent from its tail. -/
lemma cacheLookup_tail_none {V : Type} (k : String)
    (l : List (String × CacheEntry V)) (h : cacheLookup k l = none) :
    cacheLookup k l.tail = none := by
  cases l with
  | nil => simp [cacheLookup]
  | cons p rest =>
      obtain ⟨pk, pe⟩ := p
      by_cases hk : pk = k
      · subst hk; simp [cacheLookup] at h
      · simpa using (by simpa [cacheLookup, hk] using h : cacheLookup k rest = none)

/-- A singleton with a different key misses. -/
lemma cacheLookup_single_none {V : Type} (k key : String) (e : CacheEntry V)
    (hne : key ≠ k) : cacheLookup k [(key, e)] = none := by
  simp [cacheLookup, hne]

/-- Inserting a fresh key below capacity appends it with no eviction. -/
lemma set_fresh_below {V : Type} (c : MemoryCache V) (now : ℚ) (key : String)
    (v : V) (hkey : cacheLookup key c.cache = none)
    (hlen : c.cache.length < c.max_size) :
    c.set now key v none = some
      { c with
        cache := c.cache ++ [(key, CacheEntry.mk v now (some c.default_ttl))]
        stats := { c.stats with size := (c.cache ++ [(key, CacheEntry.mk v now (some c.default_ttl))]).length } } := by
  have hk : ¬((cacheLookup key c.cache).isSome = true) := by simp [hkey]
  simp [MemoryCache.set, hk, evictLoop_lt hlen]

/-- Inserting a fresh key at full capacity (at least 1) pops the LRU head,
appends the new entry and counts one eviction. -/
lemma set_fresh_full {V : Type} (c : MemoryCache V) (now : ℚ) (key : String)
    (v : V) (hkey : cacheLookup key c.cache = none)
    (h1 : 1 ≤ c.max_size) (hlen : c.cache.length = c.max_size) :
    c.set now key v none = some
      { c with
        cache := c.cache.tail ++ [(key, CacheEntry.mk v now (some c.default_ttl))]
        stats := { c.stats with
          evictions := c.stats.evictions + 1
          size := (c.cache.tail ++ [(key, CacheEntry.mk v now (some c.default_ttl))]).length } } := by
  have hk : ¬((cacheLookup key c.cache).isSome = true) := by simp [hkey]
  simp [MemoryCache.set, hk, evictLoop_eq hlen h1]

/-- Filling a cache with fresh distinct keys: the evictions counter grows by
the overflow over capacity, and the surviving keys are the most recently
inserted ones (older keys are evicted from the LRU end first). -/
lemma fillKeys_spec {V : Type} (v : V) (now : ℚ) :
    ∀ (ks : List String) (c : MemoryCache V),
      1 ≤ c.max_size →
      c.cache.length ≤ c.max_size →
      ks.Nodup →
      (∀ key ∈ ks, cacheLookup key c.cache = none) →
      ∃ c', c.fillKeys now v ks = some c' ∧
        c'.stats.evictions = c.stats.evictions + (c.cache.length + ks.length - c.max_size) ∧
        c'.cache.map Prod.fst = (c.cache.map Prod.fst ++ ks).drop (c.cache.length + ks.length - c.max_size) := by
  intro ks
  induction ks with
  | nil =>
      intro c h1 hb _ _
      refine ⟨c, rfl, ?_, ?_⟩
      · simp only [List.length_nil]
        omega
      · have hz : c.cache.length + ([] : List String).length - c.max_size = 0 := by
          simp only [List.length_nil]
          omega
        rw [hz]
        simp
  | cons key rest ih =>
      intro c h1 hb hnodup hfresh
      have hkey : cacheLookup key c.cache = none := hfresh key (by simp)
      have hkeyrest : key ∉ rest := (List.nodup_cons.mp hnodup).1
      have hnodup' : rest.Nodup := (List.nodup_cons.mp hnodup).2
      by_cases hlen : c.cache.length < c.max_size
      · -- below capacity: plain append, no eviction
        have hstep := set_fresh_below c now key v hkey hlen
        have hfresh' : ∀ k' ∈ rest,
            cacheLookup k' (c.cache ++ [(key, CacheEntry.mk v now (some c.default_ttl))]) = none := by
          intro k' hk'
          exact cacheLookup_append_none k' _ _ (hfresh k' (by simp [hk']))
            (cacheLookup_single_none k' key _ (fun he => hkeyrest (he ▸ hk')))
        obtain ⟨c', hfill, hev, hkeys⟩ := ih
          { c with
            cache := c.cache ++ [(key, CacheEntry.mk v now (some c.default_ttl))]
            stats := { c.stats with size := (c.cache ++ [(key, CacheEntry.mk v now (some c.default_ttl))]).length } }
          h1 (by simp; omega) hnodup' hfresh'
        refine ⟨c', ?_, ?_, ?_⟩
        · simp only [MemoryCache.fillKeys, hstep]
          exact hfill
        · rw [hev]
          simp only [List.length_append, List.length_cons, List.length_nil]
          omega
        · rw [hkeys]
          simp only [List.map_append, List.map_cons, List.map_nil,
            List.length_append, List.length_cons, List.length_nil,
            List.append_assoc, List.nil_append, List.cons_append]
          have hidx : c.cache.length + 1 + rest.length - c.max_size
              = c.cache.length + (rest.length + 1) - c.max_size := by omega
          rw [hidx]
      · -- at capacity: LRU head popped, one eviction
        have hlenM : c.cache.length = c.max_size := by omega
        have hstep := set_fresh_full c now key v hkey h1 hlenM
        have htail : cacheLookup key c.cache.tail = none :=
          cacheLookup_tail_none key c.cache hkey
        have hfresh' : ∀ k' ∈ rest,
            cacheLookup k' (c.cache.tail ++ [(key, CacheEntry.mk v now (some c.default_ttl))]) = none := by
          intro k' hk'
          exact cacheLookup_append_none k' _ _
            (cacheLookup_tail_none k' c.cache (hfresh k' (by simp [hk'])))
            (cacheLookup_single_none k' key _ (fun he => hkeyrest (he ▸ hk')))
        have hne : c.cache ≠ [] := by
          intro hnil
          rw [hnil] at hlenM
          simp at hlenM
          omega
        have htaillen : c.cache.tail.length = c.max_size - 1 := by
          rw [List.length_tail, hlenM]
        obtain ⟨c', hfill, hev, hkeys⟩ := ih
          { c with
            cache := c.cache.tail ++ [(key, CacheEntry.mk v now (some c.default_ttl))]
            stats := { c.stats with
              evictions := c.stats.evictions + 1
              size := (c.cache.tail ++ [(key, CacheEntry.mk v now (some c.default_ttl))]).length } }
          h1 (by simp [htaillen]; omega) hnodup' hfresh'
        refine ⟨c', ?_, ?_, ?_⟩
        · simp only [MemoryCache.fillKeys, hstep]
          exact hfill
        · rw [hev]
          simp only [List.length_append, List.length_cons, List.length_nil, htaillen]
          omega
        · rw [hkeys]
          obtain ⟨p, t, hct⟩ : ∃ p t, c.cache = p :: t := by
            cases hc : c.cache with
            | nil => exact absurd hc hne
            | cons p t => exact ⟨p, t, rfl⟩
          rw [hct]
          simp only [List.map_append, List.map_cons, List.map_nil,
            List.length_append, List.length_cons, List.length_nil,
            List.append_assoc, List.nil_append, List.cons_append, List.tail_cons]
          have hlent : t.length = c.max_size - 1 := by
            rw [hct] at hlenM
            simp at hlenM
            omega
          have hidx1 : t.length + 1 + rest.length - c.max_size = rest.length := by
            omega
          have hidx2 : t.length + 1 + (rest.length + 1) - c.max_size
              = rest.length + 1 := by omega
          rw [hidx1, hidx2]
          simp [List.drop_succ_cons]

/-- C6: the number of stored entries never exceeds `max_size` after a `set`
(and `get` can only shrink the store); inserting `max_size + k` distinct new
keys into an initially empty cache evicts exactly the `k` least-recently-used
entries (the first `k` inserted) and raises the evictions counter by exactly
`k`. -/
theorem C6_lru_capacity_and_eviction :
    (∀ (V : Type) (c : MemoryCache V) (now : ℚ) (key : String) (value : V)
        (ttl : Option ℚ) (c' : MemoryCache V),
        c.cache.length ≤ c.max_size → c.set now key value ttl = some c' →
        c'.cache.length ≤ c.max_size) ∧
    (∀ (V : Type) (c : MemoryCache V) (now : ℚ) (key : String),
        ((c.get now key).2).cache.length ≤ c.cache.length) ∧
    (∀ (V : Type) (v : V) (now : ℚ) (M k : Nat) (ks : List String),
        1 ≤ M → ks.Nodup → ks.length = M + k →
        ∃ c', MemoryCache.fillKeys { max_size := M, default_ttl := 3600, cache := [], stats := { max_size := M } } now v ks = some c' ∧
          c'.stats.evictions = k ∧
          c'.cache.map Prod.fst = ks.drop k ∧
          c'.cache.length = M) := by
  refine ⟨fun V c now key value ttl c' hb h => set_preserves_bound c now key value ttl c' hb h,
    fun V c now key => get_nonincreasing c now key, ?_⟩
  intro V v now M k ks h1 hnodup hlen
  obtain ⟨c', hfill, hev, hkeys⟩ := fillKeys_spec v now ks
    { max_size := M, default_ttl := 3600, cache := [], stats := { max_size := M } }
    h1 (by simp) hnodup (fun key _ => rfl)
  refine ⟨c', hfill, ?_, ?_, ?_⟩
  · rw [hev]
    simp only [List.length_nil, hlen]
    omega
  · rw [hkeys]
    simp only [List.map_nil, List.nil_append, List.length_nil, hlen]
    have hidx : 0 + (M + k) - M = k := by omega
    rw [hidx]
  · have := congrArg List.length hkeys
    simp only [List.length_map, List.length_drop, List.map_nil, List.nil_append,
      List.length_append, List.length_nil, hlen] at this
    rw [this]
    omega

/-- Concrete two-entry cache inputs for the C6 witness. -/
def c6in : MemoryCache Nat :=
  { max_size := 2, default_ttl := 3600, cache := [], stats := { max_size := 2 } }

/-- The result of inserting one key into `c6in`. -/
def c6out : MemoryCache Nat := (c6in.set 0 "a" 5 none).getD c6in

/-- Witness for C6: one insert stays within capacity, `get` does not grow
the store, and filling capacity 2 with three distinct keys evicts exactly
the first key with one eviction counted. -/
theorem C6_lru_capacity_and_eviction_witness :
    c6out.cache.length ≤ c6in.max_size ∧
    ((c6in.get 0 "a").2).cache.length ≤ c6in.cache.length ∧
    (∃ c', MemoryCache.fillKeys { max_size := 2, default_ttl := 3600, cache := [], stats := { max_size := 2 } } 0 7 ["a", "b", "c"] = some c' ∧
      c'.stats.evictions = 1 ∧
      c'.cache.map Prod.fst = ["a", "b", "c"].drop 1 ∧
      c'.cache.length = 2) := by
  refine ⟨?_, ?_, ?_⟩
  · exact C6_lru_capacity_and_eviction.1 Nat c6in 0 "a" 5 none c6out
      (by decide) (by rfl)
  · exact C6_lru_capacity_and_eviction.2.1 Nat c6in 0 "a"
  · exact C6_lru_capacity_and_eviction.2.2 Nat 7 0 2 1 ["a", "b", "c"]
      (by decide) (by decide) (by decide)

/-- Server config for the C2 failing input. -/
def cfgC2 : ServerConfig := { name := "s", transport := .stdio, command := some "npx" }

/-- Prior state for the C2 failing input: a previous start failed, leaving
`last_error` populated. -/
def infoC2 : ProcessInfo := { status := .failed, last_error := some "boom" }

/-- Manager for the C2 failing input. -/
def pmC2 : ProcessManager :=
  { registry := { servers := [("s", cfgC2)], processes := [("s", infoC2)] } }

/-- C2: on a successful spawn, `ProcessManager.start` sets `pid`, `RUNNING`
and `started_at` as claimed, but the `last_error=None` it passes is dropped
by `update_process_info`'s `is not None` guard, so a stale `last_error`
from a previous failure survives instead of being cleared to null. -/
theorem C2_start_does_not_clear_last_error :
    ((pmC2.start "s" (.ok 42) 100).2).toOption =
      some { pid := some 42, status := .running, started_at := some 100,
             restart_count := 0, last_error := some "boom" } ∧
    (alistLookup "s" ((pmC2.start "s" (.ok 42) 100).1).registry.processes).map
        ProcessInfo.last_error = some (some "boom") := by
  decide

/-- Supervisor for C3 part 2: a healthy running server with two automatic
restarts on record. -/
def supStopInfo : ProcessInfo :=
  { pid := some 7, status := .running, started_at := some 50, restart_count := 2 }

def supStop : Supervisor :=
  { pm :=
      { registry :=
          { servers := [("s", supExampleConfig)]
            processes := [("s", supStopInfo)] }
        processes := [("s", none)] } }

/-- Supervisor for C3 part 3: a server latched FAILED after exhausting its
restart budget (`restart_count = 3`), with no live handle. -/
def supFailedInfo : ProcessInfo :=
  { status := .failed, restart_count := 3, last_error := some "Process exited with code 1" }

def supFailed : Supervisor :=
  { pm :=
      { registry :=
          { servers := [("s", supExampleConfig)]
            processes := [("s", supFailedInfo)] } } }

/-- C3: a supervisor-driven automatic restart increments `restart_count` by
one, and a manual `stop_server` resets it to 0; but a manual start leaves
`restart_count` untouched — after a manual start following latched FAILED
it is still 3, not 0 as the spec requires. -/
theorem C3_manual_start_keeps_restart_count :
    (alistLookup "s" (supExample.check_server "s" "" (.ok 8) 60).1.pm.registry.processes).map
        (fun i => (i.restart_count, i.status)) = some (2, .running) ∧
    (alistLookup "s" (supStop.stop_server "s").1.pm.registry.processes).map
        (fun i => (i.restart_count, i.status)) = some (0, .stopped) ∧
    (alistLookup "s" (supFailed.start_server "s" (.ok 9) 200).1.pm.registry.processes).map
        (fun i => (i.restart_count, i.status)) = some (3, .running) := by
  decide

/-- Server config for the C8 counterexample. -/
def cfgC8 : ServerConfig := { name := "s", transport := .stdio, command := some "npx" }

/-- Process info for the C8 counterexample: a FAILED (not STOPPED) server. -/
def infoC8 : ProcessInfo := { status := .failed, restart_count := 3 }

/-- Registry for the C8 counterexample. -/
def regC8 : ServerRegistry :=
  { servers := [("s", cfgC8)], processes := [("s", infoC8)] }

/-- C8 counterexample: `remove` succeeds on a server whose status is FAILED
(which is not STOPPED), refuting the claim that removal requires STOPPED. -/
theorem C8_remove_failed_counterexample :
    (alistLookup "s" regC8.processes).map ProcessInfo.status = some .failed ∧
    ServerStatus.failed ≠ ServerStatus.stopped ∧
    (regC8.remove "s").toOption = some { servers := [], processes := [] } := by
  decide

/-- C8 amended: `remove(name)` fails exactly when the named server is in a
running state (`RUNNING` or `STARTING`, per `ProcessInfo.is_running`), and
leaves the registry unchanged in that case; servers in STOPPED, STOPPING or
FAILED status are removed successfully. -/
theorem C8_remove_blocks_only_running_amended (reg : ServerRegistry)
    (name : String) (info : ProcessInfo)
    (hs : (alistLookup name reg.servers).isSome)
    (hp : alistLookup name reg.processes = some info) :
    ((reg.remove name).toOption.isSome ↔
      (info.status ≠ .running ∧ info.status ≠ .starting)) ∧
    (∀ reg', reg.remove name = .ok reg' →
      reg'.servers = alistErase name reg.servers ∧
      reg'.processes = alistErase name reg.processes) := by
  obtain ⟨cfg, hcfg⟩ := Option.isSome_iff_exists.mp hs
  constructor
  · cases hstat : info.status <;>
      simp [ServerRegistry.remove, hcfg, hp, ProcessInfo.is_running, hstat,
        Except.toOption]
  · intro reg' hrem
    by_cases hrun : info.is_running
    · simp [ServerRegistry.remove, hcfg, hp, hrun] at hrem
    · simp [ServerRegistry.remove, hcfg, hp, hrun] at hrem
      rw [← hrem]
      exact ⟨rfl, rfl⟩

/-- Witness for C8 amended at the FAILED registry: removal is allowed and
deletes the entry. -/
theorem C8_remove_blocks_only_running_amended_witness :
    ((regC8.remove "s").toOption.isSome ↔
      (infoC8.status ≠ .running ∧ infoC8.status ≠ .starting)) ∧
    (({ servers := [], processes := [] } : ServerRegistry).servers
        = alistErase "s" regC8.servers ∧
     ({ servers := [], processes := [] } : ServerRegistry).processes
        = alistErase "s" regC8.processes) := by
  have h := C8_remove_blocks_only_running_amended regC8 "s" infoC8
    (by decide) (by decide)
  exact ⟨h.1, h.2 { servers := [], processes := [] } (by rfl)⟩

/-- Bridge with one pending awaiter for the C1 counterexample. -/
def brC1 : StdioBridge Nat := { request_id := 1, pending := [(1, .waiting)] }

/-- C1 counterexample: `close()` leaves the pending awaiter plainly
cancelled (`future.cancel()`, observed as `CancelledError`), not failed
with the Closed `StdioBridgeError`. -/
theorem C1_close_plain_cancel_counterexample :
    (brC1.close).1.pending = [] ∧
    (brC1.close).2 = [(1, .cancelledPlain)] ∧
    (AwaiterOutcome.cancelledPlain : AwaiterOutcome Nat)
      ≠ .failedWith "Bridge is closed" := by
  decide

/-- C1 amended: after `close()` the pending map is empty and the bridge is
marked closed, and every awaiter that was pending at close time observes a
plain cancellation (not a lost future, but also not a `StdioBridgeError`). -/
theorem C1_close_clears_pending_amended {R : Type} (br : StdioBridge R)
    (id : Nat) (f : FutureState R) :
    (br.close).1.pending = [] ∧
    (br.close).1.closed = true ∧
    ((id, f) ∈ br.pending → f = .waiting →
      (id, AwaiterOutcome.cancelledPlain) ∈ (br.close).2) := by
  refine ⟨rfl, rfl, fun hmem hw => ?_⟩
  subst hw
  have := List.mem_map_of_mem
    (fun p : Nat × FutureState R => ((p.1 : Nat),
      match p.2 with
      | .waiting => (AwaiterOutcome.cancelledPlain : AwaiterOutcome R)
      | .done r => .answered r
      | .cancelled => .alreadyCancelled)) hmem
  simpa [StdioBridge.close] using this

/-- Witness for C1 amended at the one-awaiter bridge. -/
theorem C1_close_clears_pending_amended_witness :
    (brC1.close).1.pending = [] ∧
    (brC1.close).1.closed = true ∧
    (1, AwaiterOutcome.cancelledPlain) ∈ (brC1.close).2 := by
  have h := C1_close_clears_pending_amended brC1 1 .waiting
  exact ⟨h.1, h.2.1, h.2.2 (by decide) rfl⟩

/-- Popping a request ID removes it from the pending map. -/
lemma pendingLookup_pop {R : Type} (id : Nat)
    (l : List (Nat × FutureState R)) :
    pendingLookup id (pendingPop id l) = none := by
  induction l with
  | nil => rfl
  | cons p rest ih =>
      by_cases hk : p.1 = id
      · simpa [pendingPop, hk] using ih
      · simpa [pendingPop, pendingLookup, hk] using ih

/-- C7: a `send` that times out surfaces the timeout to the caller and
removes its pending entry; a response arriving later with that ID is
dropped without changing the bridge; a subsequent `send` uses a fresh ID
and completes normally. -/
theorem C7_timeout_removes_pending {R : Type} (br : StdioBridge R) (r r2 : R)
    (hclosed : br.closed = false) (hstdin : br.stdin_available = true) :
    (br.send .timeoutEv).1 = .error .timeoutErr ∧
    pendingLookup (br.request_id + 1) ((br.send .timeoutEv).2).pending = none ∧
    ((br.send .timeoutEv).2).read_response (some (br.request_id + 1)) r
      = (br.send .timeoutEv).2 ∧
    ((br.send .timeoutEv).2).request_id = br.request_id + 1 ∧
    (((br.send .timeoutEv).2).send (.response r2)).1 = .ok r2 := by
  have hpop : pendingLookup (br.request_id + 1) ((br.send .timeoutEv).2).pending
      = none := by
    simp only [StdioBridge.send, hclosed, hstdin]
    simp
    exact pendingLookup_pop _ _
  refine ⟨?_, hpop, ?_, ?_, ?_⟩
  · simp [StdioBridge.send, hclosed, hstdin]
  · simp only [StdioBridge.read_response, hpop]
  · simp [StdioBridge.send, hclosed, hstdin]
  · simp [StdioBridge.send, hclosed, hstdin]

/-- Empty bridge for the C7 witness. -/
def brC7 : StdioBridge Nat := {}

/-- Witness for C7 at a fresh bridge: the timed-out request (ID 1) is gone,
a late ID-1 response is a no-op, and the next send (ID 2) succeeds. -/
theorem C7_timeout_removes_pending_witness :
    (brC7.send .timeoutEv).1 = .error .timeoutErr ∧
    pendingLookup (brC7.request_id + 1) ((brC7.send .timeoutEv).2).pending = none ∧
    ((brC7.send .timeoutEv).2).read_response (some (brC7.request_id + 1)) 5
      = (brC7.send .timeoutEv).2 ∧
    ((brC7.send .timeoutEv).2).request_id = brC7.request_id + 1 ∧
    (((brC7.send .timeoutEv).2).send (.response 9)).1 = .ok 9 :=
  C7_timeout_removes_pending brC7 5 9 rfl rfl

/-- C9 counterexample: when the LLM echoes the prompt unchanged, `enhance`
returns `enhanced == original` with `enhanced_by_llm = true` and no error,
so `enhanced == original` does not imply the enhancement was skipped or
failed. -/
theorem C9_llm_echo_counterexample :
    ((EnhancementService.enhance {} 0 "hello" none false
        (.success "hello")).toOption.map
      (fun r => (r.1.original, r.1.enhanced, r.1.enhanced_by_llm, r.1.cached,
        r.1.error))) = some ("hello", "hello", true, false, none) := by
  rfl

/-- With capacity at least 1 the eviction loop always terminates normally. -/
lemma evictLoop_some {V : Type} (M : Nat) (h1 : 1 ≤ M) :
    ∀ (l : List (String × CacheEntry V)) (ev : Nat),
      ∃ res, evictLoop M l ev = some res := by
  intro l
  induction l with
  | nil =>
      intro ev
      have h0 : M ≠ 0 := by omega
      exact ⟨([], ev), by simp [evictLoop, h0]⟩
  | cons e rest ih =>
      intro ev
      by_cases hlen : (e :: rest).length ≥ M
      · obtain ⟨res, hres⟩ := ih (ev + 1)
        refine ⟨res, ?_⟩
        simp only [evictLoop]
        rw [if_pos hlen]
        exact hres
      · refine ⟨(e :: rest, ev), ?_⟩
        simp only [evictLoop]
        rw [if_neg hlen]

/-- With capacity at least 1, `set` never raises. -/
lemma set_some {V : Type} (c : MemoryCache V) (now : ℚ) (key : String) (v : V)
    (h1 : 1 ≤ c.max_size) : ∃ c', c.set now key v none = some c' := by
  unfold MemoryCache.set
  by_cases hk : (cacheLookup key c.cache).isSome
  · rw [if_pos hk]
    exact ⟨_, rfl⟩
  · rw [if_neg hk]
    obtain ⟨⟨entries, ev⟩, heq⟩ :=
      evictLoop_some c.max_size h1 c.cache c.stats.evictions
    rw [heq]
    exact ⟨_, rfl⟩

/-- C9 amended: `enhanced == original` holds whenever enhancement was
skipped (rule disabled; breaker open with a numeric `retry_after`) or
failed (LLM error); on LLM success, `enhanced` is the stripped LLM output
with `enhanced_by_llm = true`, which may — but need not — differ from the
original. -/
theorem C9_enhanced_vs_original_amended :
    (∀ (svc : EnhancementService) (now : ℚ) (prompt : String)
        (client_name : Option String) (bypass : Bool) (llm : LLMOutcome),
      (svc.get_rule client_name).enabled = false →
      svc.enhance now prompt client_name bypass llm =
        .ok ({ original := prompt, enhanced := prompt,
               error := some "Enhancement disabled for client" }, svc)) ∧
    (∀ (svc : EnhancementService) (now : ℚ) (prompt : String)
        (client_name : Option String) (llm : LLMOutcome)
        (e : CircuitBreakerError) (q : ℚ),
      (svc.get_rule client_name).enabled = true →
      svc.breaker.check now = .error e →
      e.retry_after = some q →
      svc.enhance now prompt client_name true llm =
        .ok ({ original := prompt, enhanced := prompt,
               error := some ("Ollama circuit breaker open, retry in "
                 ++ toString (roundHalfEven q) ++ "s") }, svc)) ∧
    (∀ (svc : EnhancementService) (now : ℚ) (prompt : String)
        (client_name : Option String) (llm : LLMOutcome)
        (cb' : CircuitBreaker),
      (svc.get_rule client_name).enabled = true →
      svc.breaker.check now = .ok cb' →
      (∀ text, llm ≠ .success text) →
      ∃ msg, svc.enhance now prompt client_name true llm =
        .ok ({ original := prompt, enhanced := prompt, error := some msg },
             { svc with breaker := cb'.record_failure now })) ∧
    (∀ (svc : EnhancementService) (now : ℚ) (prompt text : String)
        (client_name : Option String) (cb' : CircuitBreaker),
      (svc.get_rule client_name).enabled = true →
      svc.breaker.check now = .ok cb' →
      1 ≤ svc.cache.max_size →
      ∃ svc', svc.enhance now prompt client_name true (.success text) =
        .ok ({ original := prompt, enhanced := pyStrip text,
               model := some (svc.get_rule client_name).model,
               enhanced_by_llm := true }, svc')) := by
  refine ⟨?_, ?_, ?_, ?_⟩
  · intro svc now prompt client_name bypass llm hdis
    simp [EnhancementService.enhance, hdis]
  · intro svc now prompt client_name llm e q hen hchk hq
    simp [EnhancementService.enhance, EnhancementService.enhanceLLM, hen, hchk,
      hq, formatDotZeroF, Except.map]
  · intro svc now prompt client_name llm cb' hen hchk hfail
    cases llm with
    | success text => exact absurd rfl (hfail text)
    | connectionFailure msg =>
        exact ⟨msg, by simp [EnhancementService.enhance,
          EnhancementService.enhanceLLM, hen, hchk]⟩
    | ollamaFailure msg =>
        exact ⟨msg, by simp [EnhancementService.enhance,
          EnhancementService.enhanceLLM, hen, hchk]⟩
    | otherFailure msg =>
        exact ⟨msg, by simp [EnhancementService.enhance,
          EnhancementService.enhanceLLM, hen, hchk]⟩
  · intro svc now prompt text client_name cb' hen hchk hcap
    obtain ⟨cache', hset⟩ := set_some svc.cache now
      (make_cache_key (orDefault client_name)
        (orDefault (some (svc.get_rule client_name).model)) prompt)
      (pyStrip text) hcap
    refine ⟨{ svc with breaker := cb'.record_success now, cache := cache' }, ?_⟩
    simp [EnhancementService.enhance, EnhancementService.enhanceLLM, hen, hchk,
      hset]

/-- Service with enhancement disabled, for the C9 witness. -/
def svcC9d : EnhancementService := { default_rule := { enabled := false } }

/-- Service whose ollama breaker is OPEN (opened at time 100), for the C9
witness. -/
def svcC9b : EnhancementService :=
  { breaker :=
      { name := "ollama"
        config := { failure_threshold := 3, recovery_timeout := 30,
                    half_open_max_calls := 1 }
        stats := { state := .opened, last_failure_time := some 100,
                   failure_count := 3, total_failures := 3, times_opened := 1 } } }

/-- Witness for C9 amended: the disabled, breaker-open, LLM-failure and
LLM-success paths at concrete inputs. -/
theorem C9_enhanced_vs_original_amended_witness :
    (svcC9d.enhance 0 "p" none false (.success "x") =
      .ok ({ original := "p", enhanced := "p",
             error := some "Enhancement disabled for client" }, svcC9d)) ∧
    (svcC9b.enhance 110 "p" none true (.success "x") =
      .ok ({ original := "p", enhanced := "p",
             error := some ("Ollama circuit breaker open, retry in "
               ++ toString (roundHalfEven 20) ++ "s") }, svcC9b)) ∧
    (∃ msg, EnhancementService.enhance {} 0 "p" none true
        (.connectionFailure "refused") =
      .ok ({ original := "p", enhanced := "p", error := some msg },
           { ({} : EnhancementService) with breaker :=
              (({} : EnhancementService).breaker).record_failure 0 })) ∧
    (∃ svc', EnhancementService.enhance {} 0 "p" none true (.success " better ") =
      .ok ({ original := "p", enhanced := pyStrip " better ",
             model := some (EnhancementService.get_rule {} none).model,
             enhanced_by_llm := true }, svc')) := by
  refine ⟨?_, ?_, ?_, ?_⟩
  · exact C9_enhanced_vs_original_amended.1 svcC9d 0 "p" none false
      (.success "x") rfl
  · have hchk : svcC9b.breaker.check 110 =
        .error { name := "ollama", state := .opened, retry_after := some 20 } := by
      simp [svcC9b, CircuitBreaker.check, CircuitBreaker.state]
      norm_num
      intro h
      exact absurd h (by decide)
    exact C9_enhanced_vs_original_amended.2.1 svcC9b 110 "p" none
      (.success "x") { name := "ollama", state := .opened, retry_after := some 20 }
      20 rfl hchk rfl
  · exact C9_enhanced_vs_original_amended.2.2.1 {} 0 "p" none
      (.connectionFailure "refused") (({} : EnhancementService).breaker)
      rfl rfl (fun text h => LLMOutcome.noConfusion h)
  · exact C9_enhanced_vs_original_amended.2.2.2 {} 0 "p" " better " none
      (({} : EnhancementService).breaker) rfl rfl (by decide)
